import Mathlib

/-!
Shallow embedding of the qllama conversation-state and attachment-resolution
pipeline (src/qllama/terminal.py, src/qllama/models/__init__.py,
src/qllama/models/text/mistral.py, src/qllama/models/vision/smolvlm.py,
src/qllama/utils.py), together with theorems settling the frozen claims.

Strings are modelled as Lean String / List Char; Python dicts used for
content items are modelled as a record with optional fields, where a key
being present in the dict corresponds to the field being some.
-/

namespace Qllama

/-! ## Python string primitives -/

/-- Whitespace characters stripped by Python str.strip (ASCII subset;
the locators and tokens in this repository are ASCII). -/
def isPySpace (c : Char) : Bool :=
  c = ' ' || c = '\t' || c = '\n' || c = '\r' || c = '\x0b' || c = '\x0c'

/-- Python str.strip(): remove leading and trailing whitespace. -/
def pyStrip (l : List Char) : List Char :=
  ((l.dropWhile isPySpace).reverse.dropWhile isPySpace).reverse

/-- Python str.lower() on the ASCII range (all names and extensions
compared in this repository are ASCII). -/
def pyLower (l : List Char) : List Char :=
  l.map Char.toLower

/-- Boolean test that pat is a leading segment of l (Python str.startswith,
used to model regex literal matching and str.replace scanning). -/
def startsWithL : List Char → List Char → Bool
  | [], _ => true
  | _ :: _, [] => false
  | p :: ps, c :: cs => p == c && startsWithL ps cs

/-- Python str.replace(old, "") with a skip counter: after a match the
next old.length characters are consumed without being emitted.  The public
entry point is removeAll below. -/
def removeAllAux (old : List Char) : Nat → List Char → List Char
  | _ + 1, [] => []
  | n + 1, _ :: cs => removeAllAux old n cs
  | 0, [] => []
  | 0, c :: cs =>
    if startsWithL old (c :: cs) && !(old.isEmpty) then
      removeAllAux old (old.length - 1) cs
    else
      c :: removeAllAux old 0 cs

/-- Python text.replace(old, ""): delete every left-to-right
non-overlapping occurrence of old in text. -/
def removeAll (old l : List Char) : List Char :=
  removeAllAux old 0 l

/-- Index of the last occurrence of c in l (Python str.rfind, with none
standing for the -1 result). -/
def rfindIdx (c : Char) : List Char → Option Nat
  | [] => none
  | x :: xs =>
    match rfindIdx c xs with
    | some i => some (i + 1)
    | none => if x = c then some 0 else none

/-- Extension part of os.path.splitext(p)[1] (posix rules): the suffix
from the last dot, provided that dot lies after the last slash and the
basename has a non-dot character before it (leading dots of the basename
never start an extension). -/
def splitextExt (p : List Char) : List Char :=
  match rfindIdx '.' p with
  | none => []
  | some d =>
    let start := match rfindIdx '/' p with
      | none => 0
      | some s2 => s2 + 1
    if d < start then []
    else if ((p.drop start).take (d - start)).any (fun ch => ch != '.') then
      p.drop d
    else []

/-- Python substring test (the in operator on str). -/
def containsSub (pat : List Char) : List Char → Bool
  | [] => startsWithL pat []
  | c :: cs => startsWithL pat (c :: cs) || containsSub pat cs

/-! ## The attachment marker scanner

terminal.py line 42 compiles the pattern <(?:image|video):([^>]+)> and
line 76 runs findall over the raw input.  The scanner below reproduces
re.findall semantics: at each position try to match the literal prefix
<image: or <video: (both 7 characters), then a maximal nonempty run of
non-gt characters followed by the closing gt; on success the captured
locator is emitted and scanning resumes after the closing gt, otherwise
scanning advances one character. -/

/-- The literal prefix of an image marker. -/
def markerImg : List Char := "<image:".data

/-- The literal prefix of a video marker. -/
def markerVid : List Char := "<video:".data

/-- Split l at its first gt character: some (before, after) where before
holds no gt, or none when l holds no gt.  Models the regex piece
([^>]+)> up to the closing character. -/
def spanToGt : List Char → Option (List Char × List Char)
  | [] => none
  | c :: cs =>
    if c = '>' then some ([], cs)
    else
      match spanToGt cs with
      | none => none
      | some (loc, rest) => some (c :: loc, rest)

/-- Try to match one attachment marker at the head of l, returning the
captured locator and the total length of the match. -/
def matchMarker (l : List Char) : Option (List Char × Nat) :=
  if startsWithL markerImg l || startsWithL markerVid l then
    match spanToGt (l.drop 7) with
    | some (loc, _) => if loc = [] then none else some (loc, 7 + loc.length + 1)
    | none => none
  else none

/-- Scan for markers; the Nat argument counts characters still to skip
because they belong to the marker just matched. -/
def findAux : Nat → List Char → List (List Char)
  | _, [] => []
  | n + 1, _ :: cs => findAux n cs
  | 0, c :: cs =>
    match matchMarker (c :: cs) with
    | some (loc, len) => loc :: findAux (len - 1) cs
    | none => findAux 0 cs

/-- re.findall of the attachment pattern over the raw input: the captured
locators in order of appearance (terminal.py line 76). -/
def findMarkers (l : List Char) : List (List Char) :=
  findAux 0 l

/-! ## Data model

Content items are Python dicts with a type key and further keys depending
on the variant (terminal.py lines 85-103, smolvlm.py lines 69-86).  A dict
is modelled as a record of optional fields: a key present in the dict is a
field holding some.  The type parameter a stands for the opaque decoded
media objects produced by the external media-loading collaborator. -/

/-- A content dict.  Terminal-produced items carry type plus url, path or
text; the vision handler adds image or frames after resolving a locator. -/
structure CDict (a : Type) where
  type : String
  url : Option String := none
  path : Option String := none
  text : Option String := none
  image : Option a := none
  frames : Option (List a) := none
deriving DecidableEq

/-- The dict produced for an image marker (terminal.py lines 85-88). -/
def imageRefItem {a : Type} (u : String) : CDict a :=
  { type := "image", url := some u }

/-- The dict produced for a video marker (terminal.py lines 91-94). -/
def videoRefItem {a : Type} (p : String) : CDict a :=
  { type := "video", path := some p }

/-- The dict produced for remaining text (terminal.py lines 100-103). -/
def textItem {a : Type} (t : String) : CDict a :=
  { type := "text", text := some t }

/-- A chat message dict: a role and a list of content dicts. -/
structure PyMessage (a : Type) where
  role : String
  content : List (CDict a)
deriving DecidableEq

/-- The new user message wrapping parsed content (terminal.py line 106). -/
def mkUserMessage {a : Type} (items : List (CDict a)) : PyMessage a :=
  { role := "user", content := items }

/-- The assistant message appended after a successful response
(terminal.py lines 161-164). -/
def mkAssistantMessage {a : Type} (resp : String) : PyMessage a :=
  { role := "assistant", content := [textItem resp] }

/-! ## The parser (terminal.py, QllamaTerminal.parse_user_input) -/

/-- Image extensions recognized by the loop body (terminal.py line 84). -/
def imageExts : List (List Char) :=
  [".jpg".data, ".jpeg".data, ".png".data, ".gif".data, ".bmp".data]

/-- Video extensions recognized by the loop body (terminal.py line 90). -/
def videoExts : List (List Char) :=
  [".mp4".data, ".avi".data, ".mov".data, ".mkv".data]

/-- One iteration of the attachment loop (terminal.py lines 81-95): look
at the extension of the captured locator; on an image extension append an
image dict and delete every occurrence of the image-tagged marker from the
running text; on a video extension append a video dict and delete the
video-tagged marker; otherwise leave the accumulator unchanged. -/
def processMarker (a : Type) (p : List Char) (acc : List (CDict a) × List Char) :
    List (CDict a) × List Char :=
  let ext := pyLower (splitextExt p)
  if ext ∈ imageExts then
    (acc.1 ++ [imageRefItem (String.mk p)],
     removeAll (markerImg ++ p ++ ['>']) acc.2)
  else if ext ∈ videoExts then
    (acc.1 ++ [videoRefItem (String.mk p)],
     removeAll (markerVid ++ p ++ ['>']) acc.2)
  else acc

/-- The content-building part of parse_user_input (terminal.py lines
72-103): collect the captured locators, run the attachment loop, strip the
remaining text and, when nonempty, append it as a single text dict. -/
def parseContent (a : Type) (input : String) : List (CDict a) :=
  let st := (findMarkers input.data).foldl
    (fun acc p => processMarker a p acc) ([], input.data)
  let t := pyStrip st.2
  st.1 ++ (if t = [] then [] else [textItem (String.mk t)])

/-- The exit tokens recognized before parsing (terminal.py line 68). -/
def exitTokens : List (List Char) :=
  ["exit".data, "quit".data, "/exit".data, "/quit".data]

/-- Exit-command test: strip, lower, compare against the fixed token set
(terminal.py line 68). -/
def isExitInput (input : String) : Bool :=
  exitTokens.contains (pyLower (pyStrip input.data))

/-- QllamaTerminal.parse_user_input (terminal.py lines 58-111): on an exit
token return an empty list and a false continue flag; otherwise build the
new user message from the parsed content and return the history followed
by that message, with a true continue flag. -/
def parse_user_input {a : Type} (history : List (PyMessage a)) (input : String) :
    List (PyMessage a) × Bool :=
  if isExitInput input then ([], false)
  else (history ++ [mkUserMessage (parseContent a input)], true)

/-! ## One iteration of the terminal loop (terminal.py, QllamaTerminal.run)

The generation call is modelled as an opaque fallible function over the
full message list; its error case covers both a raised exception and a
user interrupt, which the loop catches identically as far as the history
is concerned (terminal.py lines 166-170). -/

/-- What one loop iteration did, beyond the new history. -/
inductive StepOutcome where
  | exited : StepOutcome
  | skipped : StepOutcome
  | failed : StepOutcome
  | answered (resp : String) : StepOutcome
deriving DecidableEq

/-- One iteration of the run loop (terminal.py lines 130-170): skip blank
input; parse; exit on a false continue flag; skip an empty message list;
otherwise call generate on the full message list and, only on success,
append the user message that was sent (the last element of that list) and
an assistant message wrapping the response; on any error the history is
returned untouched. -/
def terminalStep {a : Type} (g : List (PyMessage a) → Except String String)
    (history : List (PyMessage a)) (input : String) :
    List (PyMessage a) × StepOutcome :=
  if pyStrip input.data = [] then (history, .skipped)
  else if (parse_user_input history input).2 = false then (history, .exited)
  else
    match (parse_user_input history input).1.getLast? with
    | none => (history, .skipped)
    | some last =>
      match g (parse_user_input history input).1 with
      | .error _ => (history, .failed)
      | .ok resp => (history ++ [last, mkAssistantMessage resp], .answered resp)

/-! ## Generation options

Both handlers read their generation parameters from the keyword arguments
with variant-specific defaults (mistral.py lines 101-107, smolvlm.py lines
114-120).  Temperatures are modelled as rationals. -/

/-- The keyword arguments a caller may pass to generate; none models an
omitted keyword. -/
structure GenKwargs where
  do_sample : Option Bool := none
  max_new_tokens : Option Nat := none
  temperature : Option ℚ := none
  top_p : Option ℚ := none
deriving DecidableEq

/-- The effective generation parameters after defaulting. -/
structure GenParams where
  do_sample : Bool
  max_new_tokens : Nat
  temperature : ℚ
  top_p : ℚ
deriving DecidableEq

/-- generation_kwargs of MistralHandler.generate (mistral.py lines
101-107). -/
def mistralKwargs (k : GenKwargs) : GenParams :=
  { do_sample := k.do_sample.getD true,
    max_new_tokens := k.max_new_tokens.getD 128,
    temperature := k.temperature.getD (7 / 10),
    top_p := k.top_p.getD (9 / 10) }

/-- generation_kwargs of SmolVLMHandler.generate (smolvlm.py lines
114-120). -/
def smolKwargs (k : GenKwargs) : GenParams :=
  { do_sample := k.do_sample.getD false,
    max_new_tokens := k.max_new_tokens.getD 64,
    temperature := k.temperature.getD 1,
    top_p := k.top_p.getD 1 }

/-! ## The text handler (mistral.py, MistralHandler)

The opaque backend objects returned by from_pretrained are modelled by a
type parameter b; backendLoads counts how many times the backend loading
code of load_model has run, which is the observable cost of a load. -/

/-- Handler state: the nullable model, tokenizer and processor references
(base.py lines 19-21, mistral.py lines 31-37) plus the load counter. -/
structure MistralState (b : Type) where
  tokenizer : Option b := none
  model : Option b := none
  processor : Option b := none
  backendLoads : Nat := 0
deriving DecidableEq

/-- MistralHandler.load_model (mistral.py lines 26-41): unconditionally
run the backend loaders and store the results; there is no guard against
an already loaded model. -/
def mistralLoadModel {b : Type} (backend : b) (s : MistralState b) : MistralState b :=
  { tokenizer := some backend,
    model := some backend,
    processor := some backend,
    backendLoads := s.backendLoads + 1 }

/-- MistralHandler.generate (mistral.py lines 86-121): auto-load when the
model reference is still None, then produce the effective generation
parameters and the backend response (opaque, passed in as resp). -/
def mistralGenerate {b : Type} (backend : b) (resp : String) (k : GenKwargs)
    (s : MistralState b) : MistralState b × GenParams × String :=
  let s1 := if s.model.isNone then mistralLoadModel backend s else s
  (s1, mistralKwargs k, resp)

/-! ## The vision handler (smolvlm.py, SmolVLMHandler) -/

/-- SmolVLMHandler.__init__ model-name coercion (smolvlm.py lines 26-27):
any name not containing the substring HuggingFaceTB/SmolVLM is replaced
by the default identifier. -/
def smolvlmInitModelName (model_name : String) : String :=
  if containsSub "HuggingFaceTB/SmolVLM".data model_name.data then model_name
  else "HuggingFaceTB/SmolVLM2-2.2B-Instruct"

/-- Handler state for the vision variant (base.py lines 19-21, smolvlm.py
lines 48-53). -/
structure SmolState (b : Type) where
  model : Option b := none
  processor : Option b := none
  backendLoads : Nat := 0
deriving DecidableEq

/-- SmolVLMHandler.load_model (smolvlm.py lines 43-57): unconditionally
run the backend loaders and store the results. -/
def smolLoadModel {b : Type} (backend : b) (s : SmolState b) : SmolState b :=
  { model := some backend,
    processor := some backend,
    backendLoads := s.backendLoads + 1 }

/-- The per-item step of SmolVLMHandler.process_messages (smolvlm.py lines
71-86): for an image dict carrying a url, insert the loaded image object
and pop the url key; for a video dict carrying a path, insert the loaded
frame list and pop the path key; leave every other dict alone.  In Python
this mutates the dict in place; here the updated dict is returned. -/
def smolProcessItem {a : Type} (li : String → a) (lv : String → List a)
    (it : CDict a) : CDict a :=
  if it.type = "image" then
    match it.url with
    | some u => { it with image := some (li u), url := none }
    | none => it
  else if it.type = "video" then
    match it.path with
    | some p => { it with frames := some (lv p), path := none }
    | none => it
  else it

/-- SmolVLMHandler.process_messages attachment resolution (smolvlm.py
lines 68-86): resolve every content dict of every message.  The Python
code mutates the message dicts of the passed-in list in place; the
returned list holds the post-mutation values of those same dicts. -/
def smolProcessMessages {a : Type} (li : String → a) (lv : String → List a)
    (msgs : List (PyMessage a)) : List (PyMessage a) :=
  msgs.map (fun m => { m with content := m.content.map (smolProcessItem li lv) })

/-- SmolVLMHandler.generate (smolvlm.py lines 99-133): auto-load when the
model reference is still None, resolve the attachments of the message
list (mutating it in place — the second component is the post-mutation
message list), and produce the effective parameters and the backend
response. -/
def smolGenerate {a b : Type} (backend : b) (li : String → a)
    (lv : String → List a) (resp : String) (k : GenKwargs)
    (msgs : List (PyMessage a)) (s : SmolState b) :
    SmolState b × List (PyMessage a) × GenParams × String :=
  let s1 := if s.model.isNone then smolLoadModel backend s else s
  (s1, smolProcessMessages li lv msgs, smolKwargs k, resp)

/-- One successful turn of the terminal loop run with the vision handler
(terminal.py lines 149-164 with smolvlm.py lines 69-86): the full message
list is history plus the new user message; generate resolves the content
dicts of that list in place, so the list the loop still holds is the
processed one; on success the loop appends its last element — the
processed user message — and the assistant message. -/
def visionTurn {a : Type} (li : String → a) (lv : String → List a)
    (resp : String) (history : List (PyMessage a)) (items : List (CDict a)) :
    List (PyMessage a) :=
  let full := history ++ [mkUserMessage items]
  let processed := smolProcessMessages li lv full
  processed ++ [mkAssistantMessage resp]

/-! ## The handler registry (models/__init__.py) -/

/-- MODEL_REGISTRY (models/__init__.py lines 11-15), as an association
list from normalized name to handler constructor path. -/
def MODEL_REGISTRY : List (String × String) :=
  [("smolvlm2", "qllama.models.vision.smolvlm.SmolVLMHandler"),
   ("mistral", "qllama.models.text.mistral.MistralHandler")]

/-- Name normalization of get_model_handler (models/__init__.py line 27):
lower-case, then delete every dash, then delete every underscore. -/
def normalizeModelName (name : String) : String :=
  String.mk (removeAll "_".data (removeAll "-".data (pyLower name.data)))

/-- The comma-separated list of known canonical names used in the
unknown-model error message (models/__init__.py line 30). -/
def availableModels : String :=
  String.intercalate ", " (MODEL_REGISTRY.map (fun e => e.1))

/-- get_model_handler resolution (models/__init__.py lines 17-41):
normalize, look up; an unknown normalized name raises ValueError with a
message listing the known canonical names; a known name resolves to the
registered handler constructor (which is then instantiated with the
original model_name). -/
def get_model_handler (name : String) : Except String String :=
  let key := normalizeModelName name
  match List.lookup key MODEL_REGISTRY with
  | some handler_path => .ok handler_path
  | none => .error ("Unknown model: " ++ name ++ ". Available models: " ++ availableModels)

/-! ## The image loader (utils.py, load_image, URL branch)

The filesystem effect is modelled by the number of surviving temporary
files; fetch models requests.get plus raise_for_status, decode models
Image.open on the temporary path. -/

/-- load_image on a URL locator (utils.py lines 46-77): fetch; on success
create a temporary file (NamedTemporaryFile with delete=False), decode
from it; os.unlink runs only on the success path — a decode failure
re-raises and the temporary file survives. -/
def loadImageUrl {b : Type} (fetch : Except String Unit)
    (decode : Except String b) (tmpFiles : Nat) : Nat × Except String b :=
  match fetch with
  | .error e => (tmpFiles, .error e)
  | .ok _ =>
    let t1 := tmpFiles + 1
    match decode with
    | .ok img => (t1 - 1, .ok img)
    | .error e => (t1, .error e)

/-- Extension-based classification of a captured locator, as performed by
the loop body of parse_user_input (terminal.py lines 83-95): the dict the
loop would append for this locator, or none when the extension is in
neither list. -/
def classifyMarker (a : Type) (p : List Char) : Option (CDict a) :=
  let ext := pyLower (splitextExt p)
  if ext ∈ imageExts then some (imageRefItem (String.mk p))
  else if ext ∈ videoExts then some (videoRefItem (String.mk p))
  else none

/-! ## Helper lemmas -/

theorem startsWithL_append_self (p r : List Char) : startsWithL p (p ++ r) = true := by
  induction p with
  | nil => rfl
  | cons c cs ih => simp [startsWithL, ih]

theorem spanToGt_append (p r : List Char) (h : '>' ∉ p) :
    spanToGt (p ++ '>' :: r) = some (p, r) := by
  induction p with
  | nil => simp [spanToGt]
  | cons c cs ih =>
    rw [List.mem_cons, not_or] at h
    have hc : ¬c = '>' := fun hc => h.1 hc.symm
    simp [spanToGt, hc, ih h.2]

theorem findAux_skip (l : List Char) : ∀ n, findAux n l = findAux 0 (l.drop n) := by
  induction l with
  | nil => intro n; cases n <;> rfl
  | cons c cs ih =>
    intro n
    cases n with
    | zero => rfl
    | succ m => simpa [findAux] using ih m

theorem removeAllAux_skip (old : List Char) (l : List Char) :
    ∀ n, removeAllAux old n l = removeAll old (l.drop n) := by
  induction l with
  | nil => intro n; cases n <;> rfl
  | cons c cs ih =>
    intro n
    cases n with
    | zero => rfl
    | succ m => simpa [removeAllAux] using ih m

theorem removeAll_self (old : List Char) (h : old ≠ []) : removeAll old old = [] := by
  match old, h with
  | o :: os, _ =>
    have hsw : startsWithL (o :: os) ((o :: os) ++ []) = true :=
      startsWithL_append_self (o :: os) []
    rw [List.append_nil] at hsw
    rw [removeAll, removeAllAux, if_pos (by simp [hsw, List.isEmpty])]
    rw [removeAllAux_skip]
    simp [removeAll, removeAllAux]

theorem removeAll_of_no_head (oldTail l : List Char) (h : '<' ∉ l) :
    removeAll ('<' :: oldTail) l = l := by
  induction l with
  | nil => rfl
  | cons c cs ih =>
    rw [List.mem_cons, not_or] at h
    have hb : ('<' == c) = false := by
      simpa using h.1
    have hsw : startsWithL ('<' :: oldTail) (c :: cs) = false := by
      simp [startsWithL, hb]
    rw [removeAll, removeAllAux, if_neg (by simp [hsw])]
    rw [show removeAllAux ('<' :: oldTail) 0 cs = removeAll ('<' :: oldTail) cs from rfl,
      ih h.2]

theorem pyStrip_eq_rdropWhile (l : List Char) :
    pyStrip l = List.rdropWhile isPySpace (List.dropWhile isPySpace l) := by
  rfl

theorem pyStrip_idem (l : List Char) : pyStrip (pyStrip l) = pyStrip l := by
  have hmm : List.dropWhile isPySpace (List.dropWhile isPySpace l)
      = List.dropWhile isPySpace l := List.dropWhile_idempotent _ _
  have hA : List.dropWhile isPySpace
      (List.rdropWhile isPySpace (List.dropWhile isPySpace l))
      = List.rdropWhile isPySpace (List.dropWhile isPySpace l) := by
    cases hcase : List.rdropWhile isPySpace (List.dropWhile isPySpace l) with
    | nil => rfl
    | cons x t =>
      obtain ⟨s, hs⟩ := List.rdropWhile_prefix isPySpace (List.dropWhile isPySpace l)
      rw [hcase] at hs
      rw [List.cons_append] at hs
      have hqx : isPySpace x = false := by
        cases hqxv : isPySpace x with
        | false => rfl
        | true =>
          exfalso
          have hfix : List.dropWhile isPySpace (x :: (t ++ s)) = x :: (t ++ s) := by
            rw [hs]; exact hmm
          have h2 : List.dropWhile isPySpace (x :: (t ++ s))
              = List.dropWhile isPySpace (t ++ s) := by
            simp [List.dropWhile_cons, hqxv]
          rw [hfix] at h2
          have hle : (List.dropWhile isPySpace (t ++ s)).length ≤ (t ++ s).length :=
            List.IsSuffix.length_le (List.dropWhile_suffix _)
          rw [← h2] at hle
          simp only [List.length_cons, List.length_append] at hle
          omega
      simp [List.dropWhile_cons, hqx]
  rw [pyStrip_eq_rdropWhile (pyStrip l), pyStrip_eq_rdropWhile l, hA]
  exact List.rdropWhile_idempotent _ _

theorem pyStrip_of_ends (x y : Char) (mid : List Char)
    (hx : isPySpace x = false) (hy : isPySpace y = false) :
    pyStrip (x :: (mid ++ [y])) = x :: (mid ++ [y]) := by
  rw [pyStrip_eq_rdropWhile]
  rw [List.dropWhile_cons, if_neg (by simp [hx])]
  rw [show x :: (mid ++ [y]) = (x :: mid) ++ [y] from rfl]
  exact List.rdropWhile_concat_neg isPySpace (x :: mid) y (by simp [hy])

theorem processMarker_image (a : Type) (p : List Char) (items : List (CDict a))
    (text : List Char) (h1 : pyLower (splitextExt p) ∈ imageExts) :
    processMarker a p (items, text)
      = (items ++ [imageRefItem (String.mk p)],
         removeAll (markerImg ++ p ++ ['>']) text) := by
  simp [processMarker, h1]

theorem processMarker_video (a : Type) (p : List Char) (items : List (CDict a))
    (text : List Char) (h1 : pyLower (splitextExt p) ∉ imageExts)
    (h2 : pyLower (splitextExt p) ∈ videoExts) :
    processMarker a p (items, text)
      = (items ++ [videoRefItem (String.mk p)],
         removeAll (markerVid ++ p ++ ['>']) text) := by
  simp [processMarker, h1, h2]

theorem processMarker_other (a : Type) (p : List Char) (items : List (CDict a))
    (text : List Char) (h1 : pyLower (splitextExt p) ∉ imageExts)
    (h2 : pyLower (splitextExt p) ∉ videoExts) :
    processMarker a p (items, text) = (items, text) := by
  simp [processMarker, h1, h2]

theorem data_mk (l : List Char) : (String.mk l).data = l := rfl

theorem matchMarker_marker (pre p : List Char)
    (hpre : pre = markerImg ∨ pre = markerVid) (hgt : '>' ∉ p) (hne : p ≠ []) :
    matchMarker (pre ++ (p ++ ['>'])) = some (p, 7 + p.length + 1) := by
  have h1 : (pre ++ (p ++ ['>'])).drop 7 = p ++ '>' :: [] := by
    have hlen : pre.length = 7 := by rcases hpre with h | h <;> subst h <;> rfl
    rw [← hlen, List.drop_left]
  rcases hpre with h | h <;> subst h <;>
    simp [matchMarker, startsWithL_append_self, h1, spanToGt_append p [] hgt, hne]

theorem findMarkers_single (pre p : List Char)
    (hpre : pre = markerImg ∨ pre = markerVid) (hgt : '>' ∉ p) (hne : p ≠ []) :
    findMarkers (pre ++ (p ++ ['>'])) = [p] := by
  have hm := matchMarker_marker pre p hpre hgt hne
  obtain ⟨c, cs, hpc⟩ : ∃ c cs, pre = c :: cs := by
    rcases hpre with h | h <;> subst h <;> exact ⟨_, _, rfl⟩
  have hcs : cs.length = 6 := by
    rcases hpre with h | h <;> rw [h] at hpc <;>
      simp [markerImg, markerVid] at hpc <;> rw [← hpc.2] <;> rfl
  rw [hpc] at hm ⊢
  rw [List.cons_append] at hm ⊢
  rw [findMarkers, findAux, hm]
  show p :: findAux (7 + p.length + 1 - 1) (cs ++ (p ++ ['>'])) = [p]
  rw [findAux_skip]
  have hT : (cs ++ (p ++ ['>'])).length = p.length + 7 := by
    simp [List.length_append, hcs]
    omega
  rw [show 7 + p.length + 1 - 1 = (cs ++ (p ++ ['>'])).length by omega]
  rw [List.drop_length]
  rfl

theorem startsWithL_vid_img (x y : List Char) :
    startsWithL (markerVid ++ x) (markerImg ++ y) = false := by
  show startsWithL ('<' :: 'v' :: ("ideo:".data ++ x))
    ('<' :: 'i' :: ("mage:".data ++ y)) = false
  simp [startsWithL]

theorem startsWithL_img_vid (x y : List Char) :
    startsWithL (markerImg ++ x) (markerVid ++ y) = false := by
  show startsWithL ('<' :: 'i' :: ("mage:".data ++ x))
    ('<' :: 'v' :: ("ideo:".data ++ y)) = false
  simp [startsWithL]

theorem removeAll_cons_mismatch (old l : List Char) (c : Char)
    (hsw : startsWithL old (c :: l) = false) (hno : removeAll old l = l) :
    removeAll old (c :: l) = c :: l := by
  rw [removeAll, removeAllAux, if_neg (by simp [hsw])]
  rw [show removeAllAux old 0 l = removeAll old l from rfl, hno]

theorem videoExt_not_imageExt (e : List Char) (h : e ∈ videoExts) : e ∉ imageExts := by
  fin_cases h <;> decide

theorem foldl_processMarker_items (a : Type) (ms : List (List Char)) :
    ∀ items text, ((ms.foldl (fun acc p => processMarker a p acc) (items, text)).1)
      = items ++ ms.filterMap (classifyMarker a) := by
  induction ms with
  | nil => intro items text; simp
  | cons p ps ih =>
    intro items text
    rw [List.foldl_cons]
    by_cases h1 : pyLower (splitextExt p) ∈ imageExts
    · rw [processMarker_image a p items text h1, ih]
      have hc : classifyMarker a p = some (imageRefItem (String.mk p)) := by
        simp [classifyMarker, h1]
      rw [List.filterMap_cons, hc]
      simp
    · by_cases h2 : pyLower (splitextExt p) ∈ videoExts
      · rw [processMarker_video a p items text h1 h2, ih]
        have hc : classifyMarker a p = some (videoRefItem (String.mk p)) := by
          simp [classifyMarker, h1, h2]
        rw [List.filterMap_cons, hc]
        simp
      · rw [processMarker_other a p items text h1 h2, ih]
        have hc : classifyMarker a p = none := by
          simp [classifyMarker, h1, h2]
        rw [List.filterMap_cons, hc]

/-! ## C1 -/

/-- C1 (counterexample): the claim says a marker written with the image
tag is classified as an image and removed from the text; on the input
markerImg followed by clip.mp4 the parser instead emits a video dict,
classified from the mp4 extension, and the marker survives into the text
item, so the claimed output of a single image dict is wrong. -/
theorem c1_counterexample :
    parseContent Unit "<image:clip.mp4>"
      = [videoRefItem "clip.mp4", textItem "<image:clip.mp4>"] ∧
    parseContent Unit "<image:clip.mp4>" ≠ [imageRefItem "clip.mp4"] :=
  ⟨by decide, by decide⟩

/-- C1 (amended): parse classifies each captured locator solely by its
file extension — an extension from the image list yields an image dict,
one from the video list yields a video dict, any other extension yields
no item at all — and a recognized marker is removed from the remaining
text only when the tag written in the marker agrees with the
extension-derived classification; on disagreement the item is still
emitted but the marker text survives into the trailing text item. -/
theorem c1_extension_classification (a : Type) (p : List Char)
    (hgt : '>' ∉ p) (hlt : '<' ∉ p) (hne : p ≠ []) :
    (pyLower (splitextExt p) ∈ imageExts →
      parseContent a (String.mk (markerImg ++ (p ++ ['>'])))
        = [imageRefItem (String.mk p)]) ∧
    (pyLower (splitextExt p) ∈ videoExts →
      parseContent a (String.mk (markerVid ++ (p ++ ['>'])))
        = [videoRefItem (String.mk p)]) ∧
    (pyLower (splitextExt p) ∈ videoExts →
      parseContent a (String.mk (markerImg ++ (p ++ ['>'])))
        = [videoRefItem (String.mk p),
           textItem (String.mk (markerImg ++ (p ++ ['>'])))]) ∧
    (pyLower (splitextExt p) ∉ imageExts → pyLower (splitextExt p) ∉ videoExts →
      parseContent a (String.mk (markerImg ++ (p ++ ['>'])))
        = [textItem (String.mk (markerImg ++ (p ++ ['>'])))]) := by
  have hfmI : findMarkers (markerImg ++ (p ++ ['>'])) = [p] :=
    findMarkers_single markerImg p (Or.inl rfl) hgt hne
  have hfmV : findMarkers (markerVid ++ (p ++ ['>'])) = [p] :=
    findMarkers_single markerVid p (Or.inr rfl) hgt hne
  have hneI : markerImg ++ (p ++ ['>']) ≠ [] := by
    show '<' :: ("image:".data ++ (p ++ ['>'])) ≠ []
    exact List.cons_ne_nil _ _
  have hneV : markerVid ++ (p ++ ['>']) ≠ [] := by
    show '<' :: ("video:".data ++ (p ++ ['>'])) ≠ []
    exact List.cons_ne_nil _ _
  have hstI : pyStrip (markerImg ++ (p ++ ['>'])) = markerImg ++ (p ++ ['>']) := by
    show pyStrip ('<' :: (("image:".data ++ p) ++ ['>']))
      = '<' :: (("image:".data ++ p) ++ ['>'])
    exact pyStrip_of_ends '<' '>' ("image:".data ++ p) (by decide) (by decide)
  have hltI : '<' ∉ "image:".data ++ (p ++ ['>']) := by
    intro hmem
    rw [List.mem_append, List.mem_append] at hmem
    rcases hmem with h | h | h
    · exact absurd h (by decide)
    · exact hlt h
    · exact absurd h (by decide)
  refine ⟨fun h1 => ?_, fun h3 => ?_, fun h2 => ?_, fun h1 h2 => ?_⟩
  · simp only [parseContent, data_mk]
    rw [hfmI, List.foldl_cons, List.foldl_nil, processMarker_image a p [] _ h1]
    rw [List.append_assoc markerImg p ['>']]
    rw [removeAll_self _ hneI]
    simp [pyStrip]
  · simp only [parseContent, data_mk]
    rw [hfmV, List.foldl_cons, List.foldl_nil,
      processMarker_video a p [] _ (videoExt_not_imageExt _ h3) h3]
    rw [List.append_assoc markerVid p ['>']]
    rw [removeAll_self _ hneV]
    simp [pyStrip]
  · simp only [parseContent, data_mk]
    rw [hfmI, List.foldl_cons, List.foldl_nil,
      processMarker_video a p [] _ (videoExt_not_imageExt _ h2) h2]
    have hrm : removeAll (markerVid ++ p ++ ['>']) (markerImg ++ (p ++ ['>']))
        = markerImg ++ (p ++ ['>']) := by
      rw [List.append_assoc markerVid p ['>']]
      show removeAll (markerVid ++ (p ++ ['>']))
          ('<' :: ("image:".data ++ (p ++ ['>'])))
        = '<' :: ("image:".data ++ (p ++ ['>']))
      apply removeAll_cons_mismatch
      · show startsWithL (markerVid ++ (p ++ ['>'])) (markerImg ++ (p ++ ['>'])) = false
        exact startsWithL_vid_img _ _
      · show removeAll ('<' :: ("video:".data ++ (p ++ ['>'])))
            ("image:".data ++ (p ++ ['>']))
          = "image:".data ++ (p ++ ['>'])
        exact removeAll_of_no_head _ _ hltI
    rw [hrm, hstI, if_neg hneI]
    rfl
  · simp only [parseContent, data_mk]
    rw [hfmI, List.foldl_cons, List.foldl_nil, processMarker_other a p [] _ h1 h2]
    rw [hstI, if_neg hneI]
    rfl

/-- C1 (witness): the amended theorem applied at the locator clip.mp4,
whose extension is in the video list, written with the image tag. -/
theorem c1_extension_classification_witness :
    parseContent Unit (String.mk (markerImg ++ ("clip.mp4".data ++ ['>'])))
      = [videoRefItem (String.mk "clip.mp4".data),
         textItem (String.mk (markerImg ++ ("clip.mp4".data ++ ['>'])))] :=
  (c1_extension_classification Unit "clip.mp4".data (by decide) (by decide)
    (by decide)).2.2.1 (by decide)

/-! ## C4 -/

/-- C4: for every raw input the parsed content is the extension-classified
attachment dicts of the captured markers, in order of appearance, followed
by at most one text dict holding a trimmed string; and on the concrete
input from the spec the result is the image dict for foo.jpg followed by
the text dict "describe this". -/
theorem c4_attachment_order (a : Type) (input : String) :
    (∃ t : List Char, pyStrip t = t ∧
      parseContent a input
        = (findMarkers input.data).filterMap (classifyMarker a)
          ++ (if t = [] then [] else [textItem (String.mk t)])) ∧
    parseContent Unit "<image:foo.jpg> describe this"
      = [imageRefItem "foo.jpg", textItem "describe this"] := by
  constructor
  · refine ⟨pyStrip (((findMarkers input.data).foldl
      (fun acc p => processMarker a p acc) ([], input.data)).2), pyStrip_idem _, ?_⟩
    simp only [parseContent]
    rw [foldl_processMarker_items]
    simp
  · decide

/-! ## C2 -/

/-- C2: a turn of the run loop is atomic with respect to the history: on a
non-blank, non-exit input, when generate succeeds the new history is the
old one followed by exactly the sent user message and an assistant message
wrapping the response (length grows by two), and when generate raises or
is interrupted the history is returned exactly as it was. -/
theorem c2_turn_atomicity (a : Type) (g : List (PyMessage a) → Except String String)
    (history : List (PyMessage a)) (input : String) (resp err : String)
    (hne : pyStrip input.data ≠ [])
    (hex : isExitInput input = false) :
    (g (parse_user_input history input).1 = .ok resp →
      terminalStep g history input
        = (history ++ [mkUserMessage (parseContent a input), mkAssistantMessage resp],
           .answered resp) ∧
      (terminalStep g history input).1.length = history.length + 2) ∧
    (g (parse_user_input history input).1 = .error err →
      terminalStep g history input = (history, .failed)) := by
  have hpr : parse_user_input history input
      = (history ++ [mkUserMessage (parseContent a input)], true) := by
    simp [parse_user_input, hex]
  constructor
  · intro hok
    rw [hpr] at hok
    have hstep : terminalStep g history input
        = (history ++ [mkUserMessage (parseContent a input), mkAssistantMessage resp],
           .answered resp) := by
      simp only [terminalStep, hpr, if_neg hne, List.getLast?_concat, hok]
      simp
    refine ⟨hstep, ?_⟩
    rw [hstep]
    simp [List.length_append]
  · intro herr
    rw [hpr] at herr
    simp only [terminalStep, hpr, if_neg hne, List.getLast?_concat, herr]
    simp

/-- C2 (witness): a successful turn on the input hello appends the two
messages; a failing turn on the same input leaves the empty history
empty. -/
theorem c2_turn_atomicity_witness :
    terminalStep (fun _ => Except.ok "hi") ([] : List (PyMessage Unit)) "hello"
      = ([] ++ [mkUserMessage (parseContent Unit "hello"), mkAssistantMessage "hi"],
         StepOutcome.answered "hi") ∧
    terminalStep (fun _ => Except.error "boom") ([] : List (PyMessage Unit)) "hello"
      = ([], StepOutcome.failed) :=
  ⟨((c2_turn_atomicity Unit (fun _ => Except.ok "hi") [] "hello" "hi" "boom"
      (by decide) (by decide)).1 rfl).1,
   (c2_turn_atomicity Unit (fun _ => Except.error "boom") [] "hello" "hi" "boom"
      (by decide) (by decide)).2 rfl⟩

/-! ## C3 -/

/-- C3: building the full message list from a history of 2N messages and a
parsed content sequence yields the history unchanged, in order, followed
by exactly one new user message whose content is the parsed items: a list
of length 2N+1 whose prefix of length 2N is the history and whose last
element is the user message; the history value itself is untouched. -/
theorem c3_message_build (a : Type) (history : List (PyMessage a)) (input : String)
    (N : Nat) (hlen : history.length = 2 * N) (hex : isExitInput input = false) :
    parse_user_input history input
      = (history ++ [mkUserMessage (parseContent a input)], true) ∧
    (parse_user_input history input).1.length = 2 * N + 1 ∧
    (parse_user_input history input).1.take (2 * N) = history ∧
    (parse_user_input history input).1.getLast?
      = some (mkUserMessage (parseContent a input)) ∧
    (mkUserMessage (parseContent a input)).role = "user" := by
  have hpr : parse_user_input history input
      = (history ++ [mkUserMessage (parseContent a input)], true) := by
    simp [parse_user_input, hex]
  refine ⟨hpr, ?_, ?_, ?_, rfl⟩
  · rw [hpr]
    simp [List.length_append, hlen]
  · rw [hpr, ← hlen]
    simp [List.take_left]
  · rw [hpr]
    exact List.getLast?_concat _

/-- C3 (witness): the build step applied to a one-turn history and the
input again. -/
theorem c3_message_build_witness :
    parse_user_input [mkUserMessage [textItem "hi"], mkAssistantMessage "ok"] "again"
      = ([mkUserMessage [textItem "hi"], mkAssistantMessage "ok"]
          ++ [mkUserMessage (parseContent Unit "again")], true) :=
  (c3_message_build Unit [mkUserMessage [textItem "hi"], mkAssistantMessage "ok"]
    "again" 1 rfl (by decide)).1

/-! ## C5 -/

/-- C5 (counterexample): calling load_model on an already loaded handler
is not a no-op: the backend loading code runs a second time and the
handler state changes. -/
theorem c5_counterexample :
    (mistralLoadModel 0 (mistralLoadModel 0 ({} : MistralState Nat))).backendLoads = 2 ∧
    mistralLoadModel 0 (mistralLoadModel 0 ({} : MistralState Nat))
      ≠ mistralLoadModel 0 ({} : MistralState Nat) :=
  ⟨rfl, by decide⟩

/-- C5 (amended): for both handler variants, generate called while the
model reference is None runs load_model exactly once before proceeding and
leaves the handler loaded; a second generate call performs no further
load; but load_model itself has no loaded-guard — called on a loaded
handler it runs the backend load again (the handler stays loaded), so the
idempotence lives in the model-is-None check of generate, not in
load_model. -/
theorem c5_auto_load_once (a b : Type) (backend : b) (li : String → a)
    (lv : String → List a) (resp : String) (k : GenKwargs)
    (msgs : List (PyMessage a)) (ms : MistralState b) (ss : SmolState b)
    (hm : ms.model = none) (hs : ss.model = none) :
    ((mistralGenerate backend resp k ms).1.backendLoads = ms.backendLoads + 1) ∧
    ((mistralGenerate backend resp k ms).1.model = some backend) ∧
    ((mistralGenerate backend resp k (mistralGenerate backend resp k ms).1).1
      = (mistralGenerate backend resp k ms).1) ∧
    ((smolGenerate backend li lv resp k msgs ss).1.backendLoads
      = ss.backendLoads + 1) ∧
    ((smolGenerate backend li lv resp k msgs ss).1.model = some backend) ∧
    ((smolGenerate backend li lv resp k msgs
        (smolGenerate backend li lv resp k msgs ss).1).1
      = (smolGenerate backend li lv resp k msgs ss).1) ∧
    ((mistralLoadModel backend (mistralLoadModel backend ms)).model = some backend) ∧
    ((mistralLoadModel backend (mistralLoadModel backend ms)).backendLoads
      = ms.backendLoads + 2) := by
  simp [mistralGenerate, mistralLoadModel, smolGenerate, smolLoadModel, hm, hs]

/-- C5 (witness): the amended theorem applied to freshly constructed
handlers over concrete backends. -/
theorem c5_auto_load_once_witness :
    (mistralGenerate 0 "r" {} ({} : MistralState Nat)).1.backendLoads
      = ({} : MistralState Nat).backendLoads + 1 :=
  (c5_auto_load_once Unit Nat 0 (fun _ => ()) (fun _ => []) "r" {} []
    {} {} rfl rfl).1

/-! ## C6 -/

/-- C6 (counterexample): a URL load whose fetch succeeds and whose decode
fails leaves the temporary file behind — starting from zero temporary
files the failed call ends with one, contradicting removal regardless of
success or failure. -/
theorem c6_counterexample :
    loadImageUrl (Except.ok ()) (Except.error "DecodeError" : Except String Nat) 0
      = (1, Except.error "DecodeError") ∧
    (loadImageUrl (Except.ok ()) (Except.error "DecodeError" : Except String Nat) 0).1
      ≠ 0 :=
  ⟨rfl, by decide⟩

/-- C6 (amended): for a URL locator the resource is downloaded to a
temporary local file before decode; the temporary file is removed when the
decode succeeds, but on a decode failure the exception propagates and the
temporary file is not removed (a fetch failure happens before the file is
created, so none is left in that case). -/
theorem c6_cleanup_only_on_success (b : Type) (fetch : Except String Unit)
    (decode : Except String b) (t : Nat) (img : b) (e : String) :
    (fetch = .ok () → decode = .ok img → loadImageUrl fetch decode t = (t, .ok img)) ∧
    (fetch = .ok () → decode = .error e →
      loadImageUrl fetch decode t = (t + 1, .error e)) ∧
    (fetch = .error e → loadImageUrl fetch decode t = (t, .error e)) := by
  refine ⟨fun hf hd => ?_, fun hf hd => ?_, fun hf => ?_⟩
  · subst hf; subst hd; simp [loadImageUrl]
  · subst hf; subst hd; simp [loadImageUrl]
  · subst hf; simp [loadImageUrl]

/-- C6 (witness): the amended theorem applied at a successful fetch and
decode, and the cleanup observed. -/
theorem c6_cleanup_only_on_success_witness :
    loadImageUrl (Except.ok ()) (Except.ok 5 : Except String Nat) 0 = (0, Except.ok 5) :=
  (c6_cleanup_only_on_success Nat (Except.ok ()) (Except.ok 5) 0 5 "e").1 rfl rfl

/-! ## C7 -/

/-- C7: registry resolution normalizes by lower-casing and deleting dashes
and underscores before lookup, so the three spellings of the smolvlm2 name
all resolve to the same canonical handler constructor, and names with
equal normalizations resolve alike; a name whose normalization is unknown
fails with an error message listing the known canonical names. -/
theorem c7_registry_normalization (name n1 n2 path : String)
    (hunk : List.lookup (normalizeModelName name) MODEL_REGISTRY = none)
    (heq : normalizeModelName n1 = normalizeModelName n2) :
    get_model_handler "Smol-VLM2"
      = Except.ok "qllama.models.vision.smolvlm.SmolVLMHandler" ∧
    get_model_handler "smolvlm2"
      = Except.ok "qllama.models.vision.smolvlm.SmolVLMHandler" ∧
    get_model_handler "SMOL_VLM2"
      = Except.ok "qllama.models.vision.smolvlm.SmolVLMHandler" ∧
    get_model_handler name
      = Except.error ("Unknown model: " ++ name
          ++ ". Available models: smolvlm2, mistral") ∧
    (get_model_handler n1 = Except.ok path → get_model_handler n2 = Except.ok path) := by
  refine ⟨rfl, rfl, rfl, ?_, ?_⟩
  · simp only [get_model_handler]
    rw [hunk]
    show Except.error ("Unknown model: " ++ name ++ ". Available models: "
        ++ availableModels)
      = Except.error ("Unknown model: " ++ name
        ++ ". Available models: smolvlm2, mistral")
    rw [show availableModels = "smolvlm2, mistral" from rfl, String.append_assoc]
    rfl
  · intro h1
    simp only [get_model_handler] at h1 ⊢
    rw [← heq]
    cases hl : List.lookup (normalizeModelName n1) MODEL_REGISTRY with
    | some hp =>
      rw [hl] at h1
      simpa using h1
    | none =>
      rw [hl] at h1
      simp at h1

/-- C7 (witness): resolution of the unknown name gpt4 produces the
NotFound message listing the canonical names. -/
theorem c7_registry_normalization_witness :
    get_model_handler "gpt4"
      = Except.error ("Unknown model: " ++ "gpt4"
          ++ ". Available models: smolvlm2, mistral") :=
  (c7_registry_normalization "gpt4" "Smol-VLM2" "smolvlm2"
    "qllama.models.vision.smolvlm.SmolVLMHandler" (by decide) (by decide)).2.2.2.1

/-! ## C8 -/

/-- C8: when the sampling keyword is omitted, the vision variant defaults
to deterministic no-sampling generation while the text variant defaults to
sampling-enabled generation, and the two defaults differ in exactly this
way. -/
theorem c8_sampling_defaults (k : GenKwargs) (h : k.do_sample = none) :
    (smolKwargs k).do_sample = false ∧ (mistralKwargs k).do_sample = true ∧
    (smolKwargs k).do_sample ≠ (mistralKwargs k).do_sample := by
  simp [smolKwargs, mistralKwargs, h]

/-- C8 (witness): the defaults theorem applied to fully omitted keyword
arguments. -/
theorem c8_sampling_defaults_witness :
    (smolKwargs {}).do_sample = false ∧ (mistralKwargs {}).do_sample = true ∧
    (smolKwargs {}).do_sample ≠ (mistralKwargs {}).do_sample :=
  c8_sampling_defaults {} rfl

/-! ## C9 -/

/-- C9: the vision handler resolves attachments by updating the content
dicts of the passed-in messages in place — for an image dict the url key
is popped and the loaded image object inserted, for a video dict the path
key is popped and the loaded frame list inserted — so the user message the
loop later appends to the history is the processed one, holding resolved
media objects rather than locator strings. -/
theorem c9_resolved_media_in_history (a : Type) (li : String → a)
    (lv : String → List a) (resp : String) (history : List (PyMessage a))
    (items : List (CDict a)) (u pv : String) :
    (visionTurn li lv resp history items).length = history.length + 2 ∧
    (visionTurn li lv resp history items)[history.length]?
      = some (mkUserMessage (items.map (smolProcessItem li lv))) ∧
    smolProcessItem li lv (imageRefItem u)
      = { type := "image", image := some (li u) } ∧
    smolProcessItem li lv (videoRefItem pv)
      = { type := "video", frames := some (lv pv) } := by
  refine ⟨?_, ?_, ?_, ?_⟩
  · simp [visionTurn, smolProcessMessages]
  · simp only [visionTurn, smolProcessMessages, List.map_append, List.map_cons,
      List.map_nil]
    rw [List.getElem?_append_left (by simp)]
    rw [List.getElem?_append_right (by simp)]
    simp [mkUserMessage]
  · simp [smolProcessItem, imageRefItem]
  · simp [smolProcessItem, videoRefItem]

/-! ## C10 -/

/-- C10: the vision handler constructor silently replaces any model name
not containing the substring HuggingFaceTB/SmolVLM with the default
identifier, so such a handler carries the default model identifier and not
the name the caller supplied. -/
theorem c10_model_name_coercion (name : String)
    (h : containsSub "HuggingFaceTB/SmolVLM".data name.data = false) :
    smolvlmInitModelName name = "HuggingFaceTB/SmolVLM2-2.2B-Instruct" ∧
    smolvlmInitModelName name ≠ name := by
  have h1 : smolvlmInitModelName name = "HuggingFaceTB/SmolVLM2-2.2B-Instruct" := by
    rw [smolvlmInitModelName, if_neg (by simp [h])]
  refine ⟨h1, ?_⟩
  intro h2
  rw [h1] at h2
  rw [← h2] at h
  have hc : containsSub "HuggingFaceTB/SmolVLM".data
      "HuggingFaceTB/SmolVLM2-2.2B-Instruct".data = true := by decide
  rw [hc] at h
  exact Bool.noConfusion h

/-- C10 (witness): the constructor coercion applied to the name mistral,
which does not contain the SmolVLM substring. -/
theorem c10_model_name_coercion_witness :
    smolvlmInitModelName "mistral" = "HuggingFaceTB/SmolVLM2-2.2B-Instruct" :=
  (c10_model_name_coercion "mistral" (by decide)).1

end Qllama
